import Mathlib

/-!
# Verification of the streamlit-pdf viewer core

A shallow embedding of the two logic-bearing parts of the repository:

* `src/streamlit_pdf/frontend/src/urlUtils.ts` — base-URL discovery
  (`getStreamlitUrl`) and media-path resolution
  (`mergeFileUrlWithStreamlitUrl`);
* `src/streamlit_pdf/frontend/src/PdfViewer.tsx` — the viewer state,
  page-height estimation (`calcPageHeight` / `estimateSize`), load-error
  classification (`onDocumentLoadError`) and the zoom controls
  (`zoomIn` / `zoomOut`).

JS strings are modelled as Lean `String` (with the character-list functions
below standing in for the regex operations used by the source), JS numbers as
`ℚ`, and the ambient browser context (`window`, `window.location`,
`window.parent.__streamlit`) as an explicit `Env` record threaded into the
functions that read it.
-/

set_option autoImplicit false

namespace StreamlitPdf

/-! ## Character-list primitives for the JS string operations -/

def isSlash (c : Char) : Bool := c == '/'

def notSlash (c : Char) : Bool := c != '/'

/-- Core of `s.replace(/^\/+/, "/")`: collapse a leading run of slashes to a
single slash, leaving everything else untouched. -/
def collapseLeadingAux : List Char → List Char
  | [] => []
  | c :: cs => if c = '/' then '/' :: cs.dropWhile isSlash else c :: cs

/-- `s.replace(/^\/+/, "/")` from urlUtils.ts line 108. -/
def collapseLeadingSlashes (s : String) : String :=
  String.mk (collapseLeadingAux s.data)

/-- `s.replace(/^\/+/, "")` from urlUtils.ts line 151. -/
def stripLeadingSlashes (s : String) : String :=
  String.mk (s.data.dropWhile isSlash)

/-- `s.replace(/\/+$/, "")` from urlUtils.ts line 157. -/
def stripTrailingSlashes (s : String) : String :=
  String.mk ((s.data.reverse.dropWhile isSlash).reverse)

/-- Core of `s.replace(/\/{2,}/g, "/")`: collapse every run of two or more
slashes into a single slash. -/
def collapseDupAux : List Char → List Char
  | [] => []
  | [c] => [c]
  | c :: d :: cs =>
    if c = '/' && d = '/' then collapseDupAux (d :: cs)
    else c :: collapseDupAux (d :: cs)

/-- `s.replace(/\/{2,}/g, "/")` from urlUtils.ts line 142. -/
def collapseDupSlashes (s : String) : String :=
  String.mk (collapseDupAux s.data)

/-- Prefix test on character lists (JS `String.prototype.startsWith`). -/
def isPrefixL : List Char → List Char → Bool
  | [], _ => true
  | _ :: _, [] => false
  | p :: ps, c :: cs => p == c && isPrefixL ps cs

/-- JS `s.startsWith(p)`. -/
def startsWithJs (s p : String) : Bool := isPrefixL p.data s.data

/-- JS `s.endsWith("/")`. -/
def endsWithSlash (s : String) : Bool :=
  match s.data.reverse.head? with
  | some c => c == '/'
  | none => false

/-- JS `p.slice(0, Math.max(0, p.lastIndexOf("/") + 1))`: everything up to and
including the last slash, or `[]` when there is no slash at all. -/
def takeThroughLastSlash (l : List Char) : List Char :=
  (l.reverse.dropWhile notSlash).reverse

/-- JS `s.toLowerCase()` (the messages involved are ASCII). -/
def toLowerStr (s : String) : String := String.mk (s.data.map Char.toLower)

/-- Substring test on character lists. -/
def hasSubstr (pat : List Char) : List Char → Bool
  | [] => pat.isEmpty
  | c :: cs => isPrefixL pat (c :: cs) || hasSubstr pat cs

/-- JS `s.includes(pat)`. -/
def includes (s pat : String) : Bool := hasSubstr pat.data s.data

/-! ## A shallow model of the WHATWG `URL` constructor

Only the `scheme://host[:port][/path][?query][#hash]` shape matters for the
base signals this component consumes.  `parseUrl` extracts `origin` and
`pathname` for that shape and returns `none` — modelling the constructor
throwing — for anything else.  Scheme and host are kept verbatim (the
lowercasing and default-port stripping the browser performs are irrelevant to
the claims, which never rely on them). -/

structure UrlParts where
  origin : String
  pathname : String
deriving DecidableEq, Repr

/-- Split a character list at its first colon. -/
def splitOnColon : List Char → Option (List Char × List Char)
  | [] => none
  | c :: cs =>
    if c = ':' then some ([], cs)
    else
      match splitOnColon cs with
      | some (pre, post) => some (c :: pre, post)
      | none => none

def isSchemeChar (c : Char) : Bool :=
  c.isAlpha || c.isDigit || c == '+' || c == '-' || c == '.'

def isHostEnd (c : Char) : Bool := c == '/' || c == '?' || c == '#'

def isPathEnd (c : Char) : Bool := c == '?' || c == '#'

/-- Shallow model of `new URL` on the underlying character list. -/
def parseUrlCore (l : List Char) : Option UrlParts :=
  match splitOnColon l with
  | none => none
  | some (scheme, rest) =>
    match scheme with
    | [] => none
    | c0 :: _ =>
      if !c0.isAlpha then none
      else if !scheme.all isSchemeChar then none
      else
        match rest with
        | '/' :: '/' :: rest2 =>
          let host := rest2.takeWhile (fun c => !isHostEnd c)
          let after := rest2.drop host.length
          if host.isEmpty then none
          else
            let path := after.takeWhile (fun c => !isPathEnd c)
            some ⟨String.mk (scheme ++ ':' :: '/' :: '/' :: host),
                  if path.isEmpty then "/" else String.mk path⟩
        | _ => none

/-- Shallow model of `new URL(s)` restricted to `scheme://host` URLs. -/
def parseUrl (s : String) : Option UrlParts := parseUrlCore s.data

/-! ## urlUtils.ts -/

/-- urlUtils.ts line 23. -/
def BASE_MEDIA_PATH : String := "/media/"

/-- The ambient browser context read by `getStreamlitUrl`:

* `windowDefined` — whether `typeof window === "undefined"` is false;
* `downloadAssetsBaseUrl` — `window.parent.__streamlit?.DOWNLOAD_ASSETS_BASE_URL`
  (`none` when the parent override object or the property is absent);
* `search` — `window.location.search` (the code only tests its truthiness);
* `streamlitUrlParam` — `new URLSearchParams(search).get("streamlitUrl")`,
  i.e. the parsed value of the `streamlitUrl` query parameter;
* `location` — the current page's own origin and pathname
  (`window.location`).  The source never reads these two components; the
  field exists so that claims about them can be stated. -/
structure Env where
  windowDefined : Bool
  downloadAssetsBaseUrl : Option String
  search : String
  streamlitUrlParam : Option String
  location : Option UrlParts
deriving DecidableEq, Repr

/-- urlUtils.ts lines 39–58.  Discovers the base signal: the injected
override when truthy, else the `streamlitUrl` query parameter when the query
string is nonempty and the parameter is present and truthy, else `null`. -/
def getStreamlitUrl (env : Env) : Option String :=
  if !env.windowDefined then none
  else if env.downloadAssetsBaseUrl.getD "" ≠ "" then env.downloadAssetsBaseUrl
  else if env.search = "" then none
  else
    match env.streamlitUrlParam with
    | none => none
    | some p => if p = "" then none else some p

/-- urlUtils.ts lines 128–138: the raw app base path — the pathname as-is
when it ends in a slash, else everything up to and including its last slash
(dropping the final segment), defaulting to `/` when nothing remains. -/
def appBaseStep1 (parentPath : String) : String :=
  if endsWithSlash parentPath then parentPath
  else
    let t := takeThroughLastSlash parentPath.data
    if t.isEmpty then "/" else String.mk t

/-- urlUtils.ts lines 128–148: derive the app base path from the base URL's
pathname via `appBaseStep1`, then normalize: collapse duplicate slashes,
force a single leading slash, and force a trailing slash unless the path is
`/`. -/
def deriveAppBasePath (parentPath : String) : String :=
  let step2 := collapseDupSlashes (appBaseStep1 parentPath)
  let step3 := if startsWithJs step2 "/" then step2 else "/" ++ step2
  if (step3 != "/") && !endsWithSlash step3 then step3 ++ "/" else step3

/-- urlUtils.ts lines 102–161.  `none` stands for JS `undefined` in both the
argument and the result. -/
def mergeFileUrlWithStreamlitUrl (env : Env) (fileUrl : Option String) :
    Option String :=
  match fileUrl with
  | none => none
  | some f =>
    if f = "" then none
    else
      let normalizedFileUrl := collapseLeadingSlashes f
      if !startsWithJs normalizedFileUrl BASE_MEDIA_PATH then some f
      else
        match getStreamlitUrl env with
        | none => some f
        | some streamlitUrl =>
          if streamlitUrl = "" then some f
          else
            match parseUrl streamlitUrl with
            | some url =>
              let parentPath := if url.pathname = "" then "/" else url.pathname
              let appBasePath := deriveAppBasePath parentPath
              let mediaPath := stripLeadingSlashes normalizedFileUrl
              some (url.origin ++ appBasePath ++ mediaPath)
            | none =>
              some (stripTrailingSlashes streamlitUrl ++ "/" ++
                    stripLeadingSlashes normalizedFileUrl)

/-- An `Env` whose only base signal is a `streamlitUrl` query parameter. -/
def envWithParam (u : String) : Env :=
  { windowDefined := true
    downloadAssetsBaseUrl := none
    search := "streamlitUrl=" ++ u
    streamlitUrlParam := some u
    location := none }

/-- An `Env` with no discoverable base signal but a live page location. -/
def envNoSignal : Env :=
  { windowDefined := true
    downloadAssetsBaseUrl := none
    search := ""
    streamlitUrlParam := none
    location := some ⟨"http://localhost:8501", "/"⟩ }

/-! ## PdfViewer.tsx -/

/-- PdfViewer.tsx line 42. -/
def MIN_ZOOM : ℚ := 1 / 2

/-- PdfViewer.tsx line 43. -/
def MAX_ZOOM : ℚ := 3

/-- PdfViewer.tsx line 44. -/
def ZOOM_STEP : ℚ := 1 / 4

/-- PdfViewer.tsx line 51. -/
def DEFAULT_PAGE_HEIGHT : ℚ := 800

/-- PdfViewer.tsx line 54. -/
def PAGE_MARGIN : ℚ := 12

/-- JS `Math.round` (round half toward positive infinity), as a map on ℚ. -/
def jsRound (q : ℚ) : ℚ := (⌊q + 1 / 2⌋ : ℤ)

/-- The `pageHeights` / `pageWidths` record objects: an index-keyed map,
modelled as an association list with unique keys. -/
def lookupEntry (m : List (Nat × ℚ)) (k : Nat) : Option ℚ :=
  (m.find? (fun e => e.1 == k)).map (·.2)

/-- The object-spread update `{ ...prev, [pageIndex]: v }`: last write wins,
previous entry for the key removed. -/
def setEntry (m : List (Nat × ℚ)) (k : Nat) (v : ℚ) : List (Nat × ℚ) :=
  m.filter (fun e => e.1 != k) ++ [(k, v)]

/-- PdfViewer.tsx lines 96–107: the average of the recorded page heights,
rounded with `Math.round`, or `DEFAULT_PAGE_HEIGHT` when none are recorded. -/
def calcPageHeight (pageHeights : List (Nat × ℚ)) : ℚ :=
  let pageHeightValues := pageHeights.map (·.2)
  if pageHeightValues = [] then DEFAULT_PAGE_HEIGHT
  else jsRound (pageHeightValues.sum / (pageHeightValues.length : ℚ))

/-- PdfViewer.tsx lines 129–139 (the virtualizer's `estimateSize` callback):
`(pageHeights[index] || calcPageHeight) * zoom + PAGE_MARGIN`.  The JS `||`
falls back on any falsy recorded value, i.e. also on a recorded `0`. -/
def estimateSize (pageHeights : List (Nat × ℚ)) (zoom : ℚ) (index : Nat) : ℚ :=
  let baseHeight :=
    match lookupEntry pageHeights index with
    | some h => if h = 0 then calcPageHeight pageHeights else h
    | none => calcPageHeight pageHeights
  baseHeight * zoom + PAGE_MARGIN

/-- PdfViewer.tsx lines 238–289: classify a document-load failure message into
a `(main, help)` pair by case-insensitive substring matching. -/
def classifyLoadError (message : String) : String × String :=
  let errorMessage := toLowerStr message
  if includes errorMessage "cors" || includes errorMessage "cross-origin" then
    ("Unable to load PDF from external source",
     "The PDF is hosted on a different domain that doesn\x27t allow cross-origin requests. Try downloading the PDF and uploading it directly, or ask the website owner to enable CORS.")
  else if includes errorMessage "invalid pdf" || includes errorMessage "pdf header" ||
      includes errorMessage "not a pdf" then
    ("Invalid PDF file",
     "The file doesn\x27t appear to be a valid PDF. Please check that the file is not corrupted and is actually a PDF document.")
  else if includes errorMessage "network" || includes errorMessage "fetch" ||
      includes errorMessage "load" then
    ("Network error loading PDF",
     "Unable to download the PDF. This could be due to network issues or CORS restrictions. Please check your internet connection.")
  else if includes errorMessage "not found" || includes errorMessage "404" then
    ("PDF not found",
     "The PDF file could not be found at the specified location. Please check the URL or file path.")
  else if includes errorMessage "unauthorized" || includes errorMessage "401" ||
      includes errorMessage "403" then
    ("Access denied", "You don\x27t have permission to access this PDF.")
  else
    ("Unable to load PDF", "Error details: " ++ message)

/-- The classifier as the specification describes it: an ordered rule table,
first match wins, with a generic fallback embedding the raw message.
Modelled from the spec, for comparison with `classifyLoadError`. -/
def errorRules : List (List String × (String × String)) :=
  [(["cors", "cross-origin"],
    ("Unable to load PDF from external source",
     "The PDF is hosted on a different domain that doesn\x27t allow cross-origin requests. Try downloading the PDF and uploading it directly, or ask the website owner to enable CORS.")),
   (["invalid pdf", "pdf header", "not a pdf"],
    ("Invalid PDF file",
     "The file doesn\x27t appear to be a valid PDF. Please check that the file is not corrupted and is actually a PDF document.")),
   (["network", "fetch", "load"],
    ("Network error loading PDF",
     "Unable to download the PDF. This could be due to network issues or CORS restrictions. Please check your internet connection.")),
   (["not found", "404"],
    ("PDF not found",
     "The PDF file could not be found at the specified location. Please check the URL or file path.")),
   (["unauthorized", "401", "403"],
    ("Access denied", "You don\x27t have permission to access this PDF."))]

/-- First rule (in table order) one of whose patterns occurs in `m`. -/
def firstMatch (m : String) :
    List (List String × (String × String)) → Option (String × String)
  | [] => none
  | r :: rest =>
    if r.1.any (fun pat => includes m pat) then some r.2 else firstMatch m rest

/-- The spec's classifier contract: scan `errorRules` in order on the
lowercased message; fall back to the generic summary with the raw message
embedded verbatim. -/
def classifySpec (message : String) : String × String :=
  (firstMatch (toLowerStr message) errorRules).getD
    ("Unable to load PDF", "Error details: " ++ message)

/-- PdfViewer.tsx lines 315–321: `Math.min(MAX_ZOOM, prevZoom + ZOOM_STEP)`. -/
def zoomIn (prevZoom : ℚ) : ℚ := min MAX_ZOOM (prevZoom + ZOOM_STEP)

/-- PdfViewer.tsx lines 322–327: `Math.max(MIN_ZOOM, prevZoom - ZOOM_STEP)`. -/
def zoomOut (prevZoom : ℚ) : ℚ := max MIN_ZOOM (prevZoom - ZOOM_STEP)

/-- `n` successive clicks of the zoom-in button. -/
def zoomInIter : Nat → ℚ → ℚ
  | 0, z => z
  | n + 1, z => zoomIn (zoomInIter n z)

/-- `n` successive clicks of the zoom-out button. -/
def zoomOutIter : Nat → ℚ → ℚ
  | 0, z => z
  | n + 1, z => zoomOut (zoomOutIter n z)

/-- The `useState` hooks of `PDFViewer` (PdfViewer.tsx lines 68–77) that make
up the per-mount viewer state. -/
structure ViewerState where
  numPages : Nat
  loading : Bool
  error : Option (String × String)
  zoom : ℚ
  pageHeights : List (Nat × ℚ)
  pageWidths : List (Nat × ℚ)
deriving DecidableEq, Repr

/-- The `useState` initial values: `0`, `true`, `null`, `1.0`, `{}`, `{}`. -/
def initialViewerState : ViewerState :=
  { numPages := 0
    loading := true
    error := none
    zoom := 1
    pageHeights := []
    pageWidths := [] }

/-- PdfViewer.tsx lines 226–233. -/
def onDocumentLoadSuccess (numPages : Nat) (s : ViewerState) : ViewerState :=
  { s with numPages := numPages, loading := false, error := none }

/-- PdfViewer.tsx lines 238–289 (state effect). -/
def onDocumentLoadError (message : String) (s : ViewerState) : ViewerState :=
  { s with loading := false, error := some (classifyLoadError message) }

/-- PdfViewer.tsx lines 294–310 (state effect). -/
def onPageLoadSuccess (pageIndex : Nat) (h w : ℚ) (s : ViewerState) :
    ViewerState :=
  { s with
    pageHeights := setEntry s.pageHeights pageIndex h
    pageWidths := setEntry s.pageWidths pageIndex w }

/-- A change of the `file` prop.  `PDFViewer` holds all of the above state in
`useState` hooks and has no effect keyed on the `file` prop (and `index.tsx`
re-renders the same React root on new data rather than remounting), so a new
reference leaves every piece of component state exactly as it was; nothing is
reset until the new document's own callbacks fire. -/
def onFileChange (s : ViewerState) : ViewerState := s

/-- The arithmetic mean of the recorded heights, as the specification words
it (the unrounded average); compared against `calcPageHeight` below. -/
def meanHeight (pageHeights : List (Nat × ℚ)) : ℚ :=
  (pageHeights.map (·.2)).sum / ((pageHeights.map (·.2)).length : ℚ)

/-! ## Sanity anchors

Concrete evaluations of the embedding, matching the scenarios exercised by
`urlUtils.test.tsx`. -/

example :
    mergeFileUrlWithStreamlitUrl (envWithParam "http://localhost:8501")
      (some "/media/file.pdf") = some "http://localhost:8501/media/file.pdf" := by
  decide

example :
    mergeFileUrlWithStreamlitUrl (envWithParam "http://localhost:8501///")
      (some "///media/file.pdf") = some "http://localhost:8501/media/file.pdf" := by
  decide

example :
    mergeFileUrlWithStreamlitUrl (envWithParam "http://localhost:8501")
      (some "https://example.com/file.pdf") = some "https://example.com/file.pdf" := by
  decide

example :
    mergeFileUrlWithStreamlitUrl (envWithParam "http://localhost:8501")
      (some "/media/sub/dir/file.pdf") =
      some "http://localhost:8501/media/sub/dir/file.pdf" := by
  decide

example :
    mergeFileUrlWithStreamlitUrl envNoSignal (some "/media/file.pdf") =
      some "/media/file.pdf" := by
  decide

example :
    mergeFileUrlWithStreamlitUrl (envWithParam "http://localhost:8501/Some_Page")
      (some "/media/file.pdf") = some "http://localhost:8501/media/file.pdf" := by
  decide

/-! ## Helper lemmas -/

theorem data_append (a b : String) : (a ++ b).data = a.data ++ b.data := rfl

theorem string_eq_iff_data {a b : String} : a = b ↔ a.data = b.data :=
  ⟨fun h => h ▸ rfl, fun h => by cases a; cases b; exact congrArg String.mk h⟩

theorem mk_ne_empty_of_ne_nil {l : List Char} (h : l ≠ []) : String.mk l ≠ "" := by
  intro e
  exact h (by simpa using string_eq_iff_data.mp e)

theorem append_ne_empty_right (a b : String) (h : b ≠ "") : a ++ b ≠ "" := by
  intro e
  have hd := string_eq_iff_data.mp e
  rw [data_append] at hd
  rcases List.append_eq_nil.mp hd with ⟨-, h2⟩
  exact h (string_eq_iff_data.mpr (by simpa using h2))

theorem dropWhile_dropWhile (p : Char → Bool) (l : List Char) :
    (l.dropWhile p).dropWhile p = l.dropWhile p := by
  induction l with
  | nil => rfl
  | cons c cs ih =>
    by_cases h : p c
    · simpa [List.dropWhile_cons, h] using ih
    · simp [List.dropWhile_cons, h]

theorem dropWhile_append_all (p : Char → Bool) (l₁ l₂ : List Char)
    (h : ∀ c ∈ l₁, p c = true) :
    (l₁ ++ l₂).dropWhile p = l₂.dropWhile p := by
  induction l₁ with
  | nil => rfl
  | cons c cs ih =>
    have hc := h c (List.mem_cons_self c cs)
    simpa [List.dropWhile_cons, hc] using
      ih (fun d hd => h d (List.mem_cons_of_mem c hd))

theorem takeWhile_append_all (p : Char → Bool) (l₁ l₂ : List Char)
    (h : ∀ c ∈ l₁, p c = true) :
    (l₁ ++ l₂).takeWhile p = l₁ ++ l₂.takeWhile p := by
  induction l₁ with
  | nil => rfl
  | cons c cs ih =>
    have hc := h c (List.mem_cons_self c cs)
    simpa [List.takeWhile_cons, hc] using
      ih (fun d hd => h d (List.mem_cons_of_mem c hd))

theorem takeWhile_all_eq (p : Char → Bool) (l : List Char)
    (h : ∀ c ∈ l, p c = true) : l.takeWhile p = l := by
  induction l with
  | nil => rfl
  | cons c cs ih =>
    have hc := h c (List.mem_cons_self c cs)
    simpa [List.takeWhile_cons, hc] using
      ih (fun d hd => h d (List.mem_cons_of_mem c hd))

theorem dropWhile_collapseLeadingAux (l : List Char) :
    (collapseLeadingAux l).dropWhile isSlash = l.dropWhile isSlash := by
  cases l with
  | nil => rfl
  | cons c cs =>
    by_cases h : c = '/'
    · subst h
      simp [collapseLeadingAux, List.dropWhile_cons, isSlash,
        dropWhile_dropWhile]
    · simp [collapseLeadingAux, h]

theorem stripLeading_collapseLeading (f : String) :
    stripLeadingSlashes (collapseLeadingSlashes f) = stripLeadingSlashes f := by
  unfold stripLeadingSlashes collapseLeadingSlashes
  rw [string_eq_iff_data]
  simpa using dropWhile_collapseLeadingAux f.data

theorem getStreamlitUrl_ne_empty (env : Env) (s : String)
    (h : getStreamlitUrl env = some s) : s ≠ "" := by
  unfold getStreamlitUrl at h
  by_cases h1 : env.windowDefined
  · rw [if_neg (by simp [h1])] at h
    by_cases h2 : env.downloadAssetsBaseUrl.getD "" ≠ ""
    · rw [if_pos h2] at h
      rcases ho : env.downloadAssetsBaseUrl with - | o
      · rw [ho] at h; cases h
      · rw [ho] at h h2
        cases h
        simpa using h2
    · rw [if_neg h2] at h
      by_cases h3 : env.search = ""
      · rw [if_pos h3] at h; cases h
      · rw [if_neg h3] at h
        rcases hp : env.streamlitUrlParam with - | p
        · rw [hp] at h; cases h
        · rw [hp] at h
          have h' : (if p = "" then none else some p) = some s := h
          by_cases he : p = ""
          · rw [if_pos he] at h'; cases h'
          · rw [if_neg he] at h'
            cases h'
            exact he
  · rw [if_pos (by simp [h1])] at h
    cases h

/-! ## Claims -/

/-- C10: for the empty-string reference, `mergeFileUrlWithStreamlitUrl`
returns `undefined` (no document), not the empty string unchanged — the
falsy-input guard conflates `""` with the `undefined` case. -/
theorem mergeEmptyStringGivesNone :
    ∀ env : Env, mergeFileUrlWithStreamlitUrl env (some "") = none := by
  intro env
  rfl

/-- C3 (amended): every **nonempty** string reference that does not begin
with the media prefix `/media/` after collapsing leading slashes is returned
byte-identically, whatever base signals are present.  (The empty string is
the sole exception: the falsy-input guard maps it to `undefined`, see the
counterexample.) -/
theorem nonMediaReferenceReturnedVerbatim :
    ∀ (env : Env) (f : String), f ≠ "" →
      startsWithJs (collapseLeadingSlashes f) BASE_MEDIA_PATH = false →
      mergeFileUrlWithStreamlitUrl env (some f) = some f := by
  intro env f hf hm
  simp only [mergeFileUrlWithStreamlitUrl]
  rw [if_neg hf]
  simp [hm]

/-- C3 counterexample: the claim as stated quantifies over every string; at
the empty string (which does not begin with `/media/`) the function returns
`none`, not the original input. -/
theorem nonMediaReferenceCounterexample :
    mergeFileUrlWithStreamlitUrl envNoSignal (some "") ≠ some "" := by
  decide

/-- Witness for `nonMediaReferenceReturnedVerbatim` at a concrete absolute
URL reference. -/
theorem nonMediaReferenceReturnedVerbatim_witness :
    mergeFileUrlWithStreamlitUrl (envWithParam "http://localhost:8501")
      (some "https://example.com/file.pdf") =
      some "https://example.com/file.pdf" :=
  nonMediaReferenceReturnedVerbatim (envWithParam "http://localhost:8501")
    "https://example.com/file.pdf" (by decide) (by decide)

/-- C2 (amended): a change of the `file` prop does **not** reset the viewer
state machine: `PDFViewer` keeps all of its `useState` state (loading flag,
page count, error, recorded page heights/widths) when the reference changes,
and per-document stores are fresh only on a new mount (the initial state has
`loading = true` and empty stores). -/
theorem fileChangePreservesViewerState :
    (∀ s : ViewerState, onFileChange s = s) ∧
    initialViewerState.loading = true ∧
    initialViewerState.pageHeights = [] ∧
    initialViewerState.pageWidths = [] ∧
    initialViewerState.numPages = 0 ∧
    initialViewerState.error = none :=
  ⟨fun _ => rfl, rfl, rfl, rfl, rfl, rfl⟩

/-- C2 counterexample: after a document with 3 pages has loaded and one page
height has been recorded, a change of the input reference leaves
`loading = false` and the recorded heights still observable, contradicting
the claimed reset to `loading` with cleared stores. -/
theorem fileChangeResetCounterexample :
    ¬ ((onFileChange (onPageLoadSuccess 0 842 612
          (onDocumentLoadSuccess 3 initialViewerState))).loading = true ∧
       (onFileChange (onPageLoadSuccess 0 842 612
          (onDocumentLoadSuccess 3 initialViewerState))).pageHeights = [] ∧
       (onFileChange (onPageLoadSuccess 0 842 612
          (onDocumentLoadSuccess 3 initialViewerState))).numPages = 0) := by
  decide

/-- C7 (amended): for an unrecorded index the page-height estimate equals the
arithmetic mean of the recorded heights **rounded to the nearest integer**
(`Math.round`), or the fixed default `DEFAULT_PAGE_HEIGHT` when none are
recorded; for a recorded index with a nonzero height the effective extent is
that height scaled by the zoom factor plus the fixed margin. -/
theorem estimateSizeSpec :
    ∀ (pageHeights : List (Nat × ℚ)) (zoom : ℚ) (index : Nat),
      (pageHeights = [] → calcPageHeight pageHeights = DEFAULT_PAGE_HEIGHT) ∧
      (pageHeights ≠ [] →
        calcPageHeight pageHeights = jsRound (meanHeight pageHeights)) ∧
      (lookupEntry pageHeights index = none →
        estimateSize pageHeights zoom index =
          calcPageHeight pageHeights * zoom + PAGE_MARGIN) ∧
      (∀ h, lookupEntry pageHeights index = some h → h ≠ 0 →
        estimateSize pageHeights zoom index = h * zoom + PAGE_MARGIN) := by
  intro pageHeights zoom index
  refine ⟨fun he => ?_, fun hne => ?_, fun hl => ?_, fun h hl hz => ?_⟩
  · subst he; rfl
  · unfold calcPageHeight meanHeight
    rw [if_neg (by simpa using hne)]
  · unfold estimateSize
    rw [hl]
  · unfold estimateSize
    rw [hl]
    simp [hz]

/-- C7 counterexample: with recorded heights 100 and 101 the claim's
unrounded arithmetic mean gives an effective extent of 112.5 for an
unrecorded index, but the code rounds the mean (`Math.round`) and yields
113. -/
theorem estimateMeanCounterexample :
    estimateSize [(0, 100), (1, 101)] 1 2 ≠
      meanHeight [(0, 100), (1, 101)] * 1 + PAGE_MARGIN := by
  have hl : lookupEntry [(0, 100), (1, 101)] 2 = none := rfl
  unfold estimateSize
  rw [hl]
  have hc : calcPageHeight [(0, 100), (1, 101)] = 101 := by
    unfold calcPageHeight jsRound
    rw [if_neg (by simp)]
    have h2 : (([(0, (100 : ℚ)), (1, 101)].map (·.2)).sum /
        (([(0, (100 : ℚ)), (1, 101)].map (·.2)).length : ℚ)) + 1 / 2 = 101 := by
      norm_num
    rw [h2]
    norm_num
  rw [hc]
  have hm : meanHeight [(0, 100), (1, 101)] = 201 / 2 := by
    unfold meanHeight
    norm_num
  rw [hm]
  unfold PAGE_MARGIN
  norm_num

/-- Witness for `estimateSizeSpec`, discharging each hypothesis at concrete
stores. -/
theorem estimateSizeSpec_witness :
    calcPageHeight [] = DEFAULT_PAGE_HEIGHT ∧
    calcPageHeight [(0, 100), (1, 101)] = jsRound (meanHeight [(0, 100), (1, 101)]) ∧
    estimateSize [(0, 100)] 2 5 = calcPageHeight [(0, 100)] * 2 + PAGE_MARGIN ∧
    estimateSize [(0, 100)] 2 0 = 100 * 2 + PAGE_MARGIN :=
  ⟨(estimateSizeSpec [] 1 0).1 rfl,
   (estimateSizeSpec [(0, 100), (1, 101)] 1 0).2.1 (by decide),
   (estimateSizeSpec [(0, 100)] 2 5).2.2.1 (by decide),
   (estimateSizeSpec [(0, 100)] 2 0).2.2.2 100 (by decide) (by decide)⟩

/-- C1 (amended): the base signal is discovered with the injected override
(`window.parent.__streamlit?.DOWNLOAD_ASSETS_BASE_URL`) taking priority over
the `streamlitUrl` query parameter; when neither is available the reference
is returned unchanged, and the current page's own origin and path are never
consulted (the result is invariant under any change of `location`). -/
theorem baseUrlDiscoveryPriority :
    (∀ env : Env, env.windowDefined = true →
      ∀ o, env.downloadAssetsBaseUrl = some o → o ≠ "" →
        getStreamlitUrl env = some o) ∧
    (∀ env : Env, env.windowDefined = true →
      env.downloadAssetsBaseUrl.getD "" = "" →
      env.search ≠ "" →
      ∀ p, env.streamlitUrlParam = some p → p ≠ "" →
        getStreamlitUrl env = some p) ∧
    (∀ env : Env, getStreamlitUrl env = none →
      ∀ f : String, f ≠ "" →
        mergeFileUrlWithStreamlitUrl env (some f) = some f) ∧
    (∀ (env : Env) (loc : Option UrlParts) (fileUrl : Option String),
      mergeFileUrlWithStreamlitUrl { env with location := loc } fileUrl =
        mergeFileUrlWithStreamlitUrl env fileUrl) := by
  refine ⟨fun env hw o ho hno => ?_, fun env hw hov hs p hp hnp => ?_,
    fun env hg f hf => ?_, fun env loc fileUrl => rfl⟩
  · unfold getStreamlitUrl
    rw [if_neg (by simp [hw]), if_pos (by rw [ho]; simpa using hno)]
    exact ho
  · unfold getStreamlitUrl
    rw [if_neg (by simp [hw]), if_neg (by simpa using hov), if_neg hs, hp]
    exact if_neg hnp
  · simp only [mergeFileUrlWithStreamlitUrl]
    rw [if_neg hf]
    by_cases hm : startsWithJs (collapseLeadingSlashes f) BASE_MEDIA_PATH
    · simp [hm, hg]
    · simp [hm]

/-- C1 counterexample: with no override and no `streamlitUrl` query
parameter, but a live page location `http://localhost:8501/`, the media
reference is returned unchanged instead of being anchored at the page's
origin and path as the claim states. -/
theorem baseUrlDiscoveryCounterexample :
    mergeFileUrlWithStreamlitUrl envNoSignal (some "/media/file.pdf") =
      some "/media/file.pdf" ∧
    mergeFileUrlWithStreamlitUrl envNoSignal (some "/media/file.pdf") ≠
      some "http://localhost:8501/media/file.pdf" := by
  decide

/-- Witness for `baseUrlDiscoveryPriority` at concrete environments: an
override beats a simultaneously present query parameter, the parameter is
used when the override is absent, and with no signal the reference comes
back unchanged. -/
theorem baseUrlDiscoveryPriority_witness :
    getStreamlitUrl
      { windowDefined := true
        downloadAssetsBaseUrl := some "https://foo.streamlit.app/bar/_stcore/"
        search := "streamlitUrl=http://localhost:8501"
        streamlitUrlParam := some "http://localhost:8501"
        location := none } = some "https://foo.streamlit.app/bar/_stcore/" ∧
    getStreamlitUrl (envWithParam "http://localhost:8501") =
      some "http://localhost:8501" ∧
    mergeFileUrlWithStreamlitUrl envNoSignal (some "/media/other.pdf") =
      some "/media/other.pdf" :=
  ⟨baseUrlDiscoveryPriority.1
      { windowDefined := true
        downloadAssetsBaseUrl := some "https://foo.streamlit.app/bar/_stcore/"
        search := "streamlitUrl=http://localhost:8501"
        streamlitUrlParam := some "http://localhost:8501"
        location := none }
      rfl "https://foo.streamlit.app/bar/_stcore/" rfl (by decide),
   baseUrlDiscoveryPriority.2.1 (envWithParam "http://localhost:8501") rfl rfl
      (by decide) "http://localhost:8501" rfl (by decide),
   baseUrlDiscoveryPriority.2.2.1 envNoSignal (by decide) "/media/other.pdf"
      (by decide)⟩

/-- C8: the load-error classifier agrees everywhere with the spec's ordered
rule table — case-insensitive substring matching, first match wins, in the
order CORS → invalid-PDF → network → not-found → unauthorized — and when no
pattern matches it returns the generic "Unable to load PDF" summary with the
raw message embedded verbatim in the help text.  (Both functions are total:
the classifier never throws.) -/
theorem classifierMatchesSpecOrder :
    ∀ message : String, classifyLoadError message = classifySpec message := by
  intro message
  unfold classifyLoadError classifySpec
  simp only [errorRules, firstMatch, List.any_cons, List.any_nil,
    Bool.or_false, Bool.or_assoc]
  split_ifs <;> rfl

theorem zoomStep_nonneg : (0 : ℚ) ≤ ZOOM_STEP := by norm_num [ZOOM_STEP]

theorem zoomInIter_eq (z : ℚ) (hz : z ≤ MAX_ZOOM) (n : Nat) :
    zoomInIter n z = min MAX_ZOOM (z + (n : ℚ) * ZOOM_STEP) := by
  induction n with
  | zero => simp [zoomInIter, min_eq_right hz]
  | succ n ih =>
    rw [zoomInIter, ih, zoomIn]
    rcases le_total (z + (n : ℚ) * ZOOM_STEP) MAX_ZOOM with h | h
    · rw [min_eq_right h]
      congr 1
      push_cast
      ring
    · rw [min_eq_left h]
      have h1 : MAX_ZOOM ≤ MAX_ZOOM + ZOOM_STEP := by
        have := zoomStep_nonneg; linarith
      have h2 : MAX_ZOOM ≤ z + ((n + 1 : Nat) : ℚ) * ZOOM_STEP := by
        have := zoomStep_nonneg
        push_cast
        nlinarith [h, this]
      rw [min_eq_left h1, min_eq_left h2]

theorem zoomOutIter_eq (z : ℚ) (hz : MIN_ZOOM ≤ z) (n : Nat) :
    zoomOutIter n z = max MIN_ZOOM (z - (n : ℚ) * ZOOM_STEP) := by
  induction n with
  | zero => simp [zoomOutIter, max_eq_right hz]
  | succ n ih =>
    rw [zoomOutIter, ih, zoomOut]
    rcases le_total MIN_ZOOM (z - (n : ℚ) * ZOOM_STEP) with h | h
    · rw [max_eq_right h]
      congr 1
      push_cast
      ring
    · rw [max_eq_left h]
      have h1 : MIN_ZOOM - ZOOM_STEP ≤ MIN_ZOOM := by
        have := zoomStep_nonneg; linarith
      have h2 : z - ((n + 1 : Nat) : ℚ) * ZOOM_STEP ≤ MIN_ZOOM := by
        have := zoomStep_nonneg
        push_cast
        nlinarith [h, this]
      rw [max_eq_left h1, max_eq_left h2]

/-- C9: one zoom step from any in-range scale stays in
`[MIN_ZOOM, MAX_ZOOM]`; zooming in at `MAX_ZOOM` and zooming out at
`MIN_ZOOM` are no-ops; and from any in-range scale, ten or more repeated
zoom-in steps give exactly `MAX_ZOOM` (dually zoom-out gives `MIN_ZOOM`),
so both iterations stabilize at the clamp. -/
theorem zoomClampAndStabilize :
    (∀ z : ℚ, MIN_ZOOM ≤ z → z ≤ MAX_ZOOM →
      (MIN_ZOOM ≤ zoomIn z ∧ zoomIn z ≤ MAX_ZOOM) ∧
      (MIN_ZOOM ≤ zoomOut z ∧ zoomOut z ≤ MAX_ZOOM) ∧
      (∀ n : Nat, 10 ≤ n → zoomInIter n z = MAX_ZOOM) ∧
      (∀ n : Nat, 10 ≤ n → zoomOutIter n z = MIN_ZOOM)) ∧
    zoomIn MAX_ZOOM = MAX_ZOOM ∧ zoomOut MIN_ZOOM = MIN_ZOOM := by
  constructor
  · intro z h1 h2
    have hS := zoomStep_nonneg
    refine ⟨⟨?_, ?_⟩, ⟨?_, ?_⟩, ?_, ?_⟩
    · rw [zoomIn]
      apply le_min
      · norm_num [MIN_ZOOM, MAX_ZOOM]
      · linarith
    · rw [zoomIn]
      exact min_le_left _ _
    · rw [zoomOut]
      exact le_max_left _ _
    · rw [zoomOut]
      apply max_le
      · norm_num [MIN_ZOOM, MAX_ZOOM]
      · linarith
    · intro n hn
      rw [zoomInIter_eq z h2 n]
      apply min_eq_left
      have hn' : (10 : ℚ) ≤ (n : ℚ) := by exact_mod_cast hn
      unfold MIN_ZOOM at h1
      unfold MAX_ZOOM ZOOM_STEP
      nlinarith [h1, hn']
    · intro n hn
      rw [zoomOutIter_eq z h1 n]
      apply max_eq_left
      have hn' : (10 : ℚ) ≤ (n : ℚ) := by exact_mod_cast hn
      unfold MAX_ZOOM at h2
      unfold MIN_ZOOM ZOOM_STEP
      nlinarith [h2, hn']
  · constructor
    · rw [zoomIn]
      exact min_eq_left (by norm_num [MAX_ZOOM, ZOOM_STEP])
    · rw [zoomOut]
      exact max_eq_left (by norm_num [MIN_ZOOM, ZOOM_STEP])

/-- Witness for `zoomClampAndStabilize` at the initial scale 1.0. -/
theorem zoomClampAndStabilize_witness :
    (MIN_ZOOM ≤ zoomIn 1 ∧ zoomIn 1 ≤ MAX_ZOOM) ∧
    zoomInIter 10 1 = MAX_ZOOM ∧ zoomOutIter 10 1 = MIN_ZOOM := by
  have h := zoomClampAndStabilize.1 1 (by norm_num [MIN_ZOOM])
    (by norm_num [MAX_ZOOM])
  exact ⟨h.1, h.2.2.1 10 (by norm_num), h.2.2.2 10 (by norm_num)⟩

/-- C5: URL resolution is total — for every nonempty reference it produces a
string — and when the discovered base signal fails to parse as a well-formed
URL, the result is the base with trailing slashes stripped, joined by exactly
one slash to the reference with its leading slashes stripped. -/
theorem mergeNeverFailsAndFallsBack :
    (∀ (env : Env) (f : String), f ≠ "" →
      (mergeFileUrlWithStreamlitUrl env (some f)).isSome = true) ∧
    (∀ (env : Env) (f streamlitUrl : String),
      f ≠ "" →
      startsWithJs (collapseLeadingSlashes f) BASE_MEDIA_PATH = true →
      getStreamlitUrl env = some streamlitUrl →
      parseUrl streamlitUrl = none →
      mergeFileUrlWithStreamlitUrl env (some f) =
        some (stripTrailingSlashes streamlitUrl ++ "/" ++
              stripLeadingSlashes f)) := by
  constructor
  · intro env f hf
    simp only [mergeFileUrlWithStreamlitUrl]
    rw [if_neg hf]
    by_cases hm : startsWithJs (collapseLeadingSlashes f) BASE_MEDIA_PATH
    · rcases hg : getStreamlitUrl env with - | su
      · simp [hm, hg]
      · have hsu := getStreamlitUrl_ne_empty env su hg
        rcases hp : parseUrl su with - | u
        · simp [hm, hg, hsu, hp]
        · simp [hm, hg, hsu, hp]
    · simp [hm]
  · intro env f su hf hm hg hp
    have hsu := getStreamlitUrl_ne_empty env su hg
    simp only [mergeFileUrlWithStreamlitUrl]
    rw [if_neg hf]
    simp [hm, hg, hsu, hp, stripLeading_collapseLeading]

/-- Witness for `mergeNeverFailsAndFallsBack`: the base `"not a url//"` does
not parse, so the result is the trailing-stripped base joined to the
leading-stripped media path. -/
theorem mergeNeverFailsAndFallsBack_witness :
    (mergeFileUrlWithStreamlitUrl (envWithParam "not a url//")
      (some "//media/file.pdf")).isSome = true ∧
    mergeFileUrlWithStreamlitUrl (envWithParam "not a url//")
      (some "//media/file.pdf") = some "not a url/media/file.pdf" := by
  constructor
  · exact mergeNeverFailsAndFallsBack.1 (envWithParam "not a url//")
      "//media/file.pdf" (by decide)
  · have h := mergeNeverFailsAndFallsBack.2 (envWithParam "not a url//")
      "//media/file.pdf" "not a url//" (by decide) (by decide) (by decide)
      (by decide)
    rw [h]
    decide

theorem mem_of_data_reverse_cons {c : Char} {l' : List Char} {s : String}
    (h : s.data.reverse = c :: l') : c ∈ s.data := by
  have : c ∈ s.data.reverse := by
    rw [h]; exact List.mem_cons_self c l'
  exact List.mem_reverse.mp this

theorem appBaseStep1_slug (dir slug : String) (hne : slug ≠ "")
    (hns : ∀ c ∈ slug.data, c ≠ '/') :
    appBaseStep1 (dir ++ "/" ++ slug) = appBaseStep1 (dir ++ "/") := by
  have hdata : (dir ++ "/" ++ slug).data = dir.data ++ '/' :: slug.data := by
    rw [data_append, data_append]
    simp
  have hdata' : (dir ++ "/").data = dir.data ++ ['/'] := by
    rw [data_append]
  have hsd : slug.data ≠ [] := by
    intro h
    exact hne (string_eq_iff_data.mpr (by simpa using h))
  cases hrev : slug.data.reverse with
  | nil => exact absurd (by simpa using hrev) hsd
  | cons c l' =>
    have hc : c ∈ slug.data := mem_of_data_reverse_cons hrev
    have hcns : c ≠ '/' := hns c hc
    have hall : ∀ d ∈ c :: l', notSlash d = true := by
      intro d hd
      have hd2 : d ∈ slug.data.reverse := by rw [hrev]; exact hd
      exact bne_iff_ne.mpr (hns d (List.mem_reverse.mp hd2))
    have e1 : endsWithSlash (dir ++ "/" ++ slug) = false := by
      unfold endsWithSlash
      rw [hdata, List.reverse_append, List.reverse_cons, hrev]
      simp only [List.cons_append, List.append_assoc, List.head?_cons]
      exact beq_eq_false_iff_ne.mpr hcns
    have e1' : endsWithSlash (dir ++ "/") = true := by
      unfold endsWithSlash
      rw [hdata', List.reverse_append]
      simp
    have e2 : takeThroughLastSlash (dir ++ "/" ++ slug).data =
        dir.data ++ ['/'] := by
      unfold takeThroughLastSlash
      rw [hdata, List.reverse_append, List.reverse_cons, hrev,
        List.append_assoc, dropWhile_append_all notSlash (c :: l') _ hall]
      have hstop : List.dropWhile notSlash (['/'] ++ dir.data.reverse) =
          '/' :: dir.data.reverse := by
        simp [List.dropWhile_cons, notSlash]
      rw [hstop, List.reverse_cons, List.reverse_reverse]
    have hmkeq : String.mk (dir.data ++ ['/']) = dir ++ "/" :=
      string_eq_iff_data.mpr (by rw [hdata'])
    unfold appBaseStep1
    rw [e1, e1']
    simp only [Bool.false_eq_true, if_false, if_true, e2]
    rw [if_neg (by simp)]
    exact hmkeq

/-- C6: when the base signal's path ends in a non-slash segment, the app
base path is derived by dropping only that last segment and keeping the
prefix: appending a slash-free page slug to a directory path yields the same
app base as the directory path alone, and concretely the base
`https://host/app/Page_Slug` with reference `/media/file.pdf` resolves to
`https://host/app/media/file.pdf`. -/
theorem mergeDropsPageSlug :
    (∀ dir slug : String, slug ≠ "" → (∀ c ∈ slug.data, c ≠ '/') →
      deriveAppBasePath (dir ++ "/" ++ slug) = deriveAppBasePath (dir ++ "/")) ∧
    mergeFileUrlWithStreamlitUrl (envWithParam "https://host/app/Page_Slug")
      (some "/media/file.pdf") = some "https://host/app/media/file.pdf" := by
  constructor
  · intro dir slug hne hns
    unfold deriveAppBasePath
    rw [appBaseStep1_slug dir slug hne hns]
  · decide

/-- Witness for `mergeDropsPageSlug` with directory `/app` and slug
`Page_Slug`. -/
theorem mergeDropsPageSlug_witness :
    deriveAppBasePath ("/app" ++ "/" ++ "Page_Slug") =
      deriveAppBasePath ("/app" ++ "/") ∧
    mergeFileUrlWithStreamlitUrl (envWithParam "https://host/app/Page_Slug")
      (some "/media/file.pdf") = some "https://host/app/media/file.pdf" :=
  ⟨mergeDropsPageSlug.1 "/app" "Page_Slug" (by decide) (by decide),
   mergeDropsPageSlug.2⟩

theorem append_ne_empty_left (a b : String) (h : a ≠ "") : a ++ b ≠ "" := by
  intro e
  have hd := string_eq_iff_data.mp e
  rw [data_append] at hd
  rcases List.append_eq_nil.mp hd with ⟨h1, -⟩
  exact h (string_eq_iff_data.mpr (by simpa using h1))

theorem getStreamlitUrl_envWithParam (u : String) (hu : u ≠ "") :
    getStreamlitUrl (envWithParam u) = some u := by
  have hs : "streamlitUrl=" ++ u ≠ "" :=
    append_ne_empty_left "streamlitUrl=" u (by decide)
  unfold getStreamlitUrl envWithParam
  rw [if_neg (by simp), if_neg (by simp), if_neg hs]
  exact if_neg hu

theorem startsWithSlash_data (f : String) (h : startsWithJs f "/" = true) :
    ∃ rest, f.data = '/' :: rest := by
  cases hfd : f.data with
  | nil =>
    unfold startsWithJs at h
    rw [hfd] at h
    exact absurd h (by decide)
  | cons c cs =>
    unfold startsWithJs at h
    rw [hfd] at h
    have h' : ('/' == c && isPrefixL [] cs) = true := h
    rw [Bool.and_eq_true] at h'
    rcases h' with ⟨h1, -⟩
    have hce : '/' = c := beq_iff_eq.mp h1
    exact ⟨cs, by rw [← hce]⟩

theorem collapseLeadingAux_double (l : List Char) :
    collapseLeadingAux ('/' :: '/' :: l) = collapseLeadingAux ('/' :: l) := by
  simp [collapseLeadingAux, List.dropWhile_cons, isSlash]

theorem splitOnColon_append (l₁ l₂ : List Char) (h : ':' ∉ l₁) :
    splitOnColon (l₁ ++ ':' :: l₂) = some (l₁, l₂) := by
  induction l₁ with
  | nil => simp [splitOnColon]
  | cons c cs ih =>
    have hc : ¬ c = ':' := by
      intro e
      exact h (by rw [e]; exact List.mem_cons_self ':' cs)
    simp [splitOnColon, hc, ih (fun m => h (List.mem_cons_of_mem c m))]

theorem takeWhile_replicate_slash_host (k : Nat) :
    (List.replicate k '/').takeWhile (fun c => !isHostEnd c) = [] := by
  cases k with
  | zero => rfl
  | succ k => simp [List.replicate_succ, List.takeWhile_cons, isHostEnd]

theorem takeWhile_replicate_slash_path (k : Nat) :
    (List.replicate k '/').takeWhile (fun c => !isPathEnd c) =
      List.replicate k '/' := by
  apply takeWhile_all_eq
  intro c hc
  rw [List.eq_of_mem_replicate hc]
  rfl

theorem parseUrlCore_hostOnly (c0 : Char) (cs hostL : List Char) (k : Nat)
    (ha : c0.isAlpha = true)
    (hsc : ∀ c ∈ c0 :: cs, isSchemeChar c = true)
    (hh : hostL ≠ [])
    (hhe : ∀ c ∈ hostL, isHostEnd c = false) :
    parseUrlCore ((c0 :: cs) ++ ':' :: '/' :: '/' ::
        (hostL ++ List.replicate k '/')) =
      some ⟨String.mk ((c0 :: cs) ++ ':' :: '/' :: '/' :: hostL),
            if k = 0 then "/" else String.mk (List.replicate k '/')⟩ := by
  have hnc : ':' ∉ c0 :: cs := by
    intro hm
    exact absurd (hsc ':' hm) (by decide)
  have hhost : (hostL ++ List.replicate k '/').takeWhile
      (fun c => !isHostEnd c) = hostL := by
    rw [takeWhile_append_all _ _ _ (fun c hc => by simp [hhe c hc]),
      takeWhile_replicate_slash_host, List.append_nil]
  unfold parseUrlCore
  rw [splitOnColon_append _ _ hnc]
  simp only [ha, Bool.not_true, Bool.false_eq_true, if_false,
    List.all_eq_true.mpr hsc, hhost]
  rw [if_neg (by simp [List.isEmpty_iff, hh])]
  rw [List.drop_left, takeWhile_replicate_slash_path]
  cases k with
  | zero => simp
  | succ k =>
    rw [if_neg (by simp [List.isEmpty_iff, List.replicate_succ])]
    rw [if_neg (by simp)]

theorem collapseDupAux_replicate (k : Nat) :
    collapseDupAux (List.replicate (k + 1) '/') = ['/'] := by
  induction k with
  | zero => rfl
  | succ k ih =>
    rw [List.replicate_succ, List.replicate_succ]
    rw [show collapseDupAux ('/' :: '/' :: List.replicate k '/') =
        collapseDupAux ('/' :: List.replicate k '/') from by
      simp [collapseDupAux]]
    rw [← List.replicate_succ]
    exact ih

theorem endsWithSlash_mk_replicate (k : Nat) :
    endsWithSlash (String.mk (List.replicate (k + 1) '/')) = true := by
  unfold endsWithSlash
  have h : (String.mk (List.replicate (k + 1) '/')).data.reverse =
      '/' :: List.replicate k '/' := by
    show (List.replicate (k + 1) '/').reverse = '/' :: List.replicate k '/'
    rw [List.reverse_replicate, List.replicate_succ]
  rw [h]
  rfl

theorem deriveAppBasePath_replicate (k : Nat) :
    deriveAppBasePath (String.mk (List.replicate (k + 1) '/')) = "/" := by
  have h1 : appBaseStep1 (String.mk (List.replicate (k + 1) '/')) =
      String.mk (List.replicate (k + 1) '/') := by
    unfold appBaseStep1
    rw [if_pos (endsWithSlash_mk_replicate k)]
  have h2 : collapseDupSlashes (String.mk (List.replicate (k + 1) '/')) =
      "/" := by
    unfold collapseDupSlashes
    rw [string_eq_iff_data]
    simpa using collapseDupAux_replicate k
  simp only [deriveAppBasePath]
  rw [h1, h2]
  decide

theorem string_append_assoc (a b c : String) : a ++ b ++ c = a ++ (b ++ c) :=
  string_eq_iff_data.mpr (by simp [data_append])

/-- C4 (amended): slash counts never affect the outcome in the following
scope.  (a) Under any discovered base signal, prepending a further leading
slash to a slash-leading media reference leaves the result unchanged, so the
number of leading slashes on the reference is irrelevant.  (b) For host-only
well-formed bases — `scheme://host` followed by any number `k` of trailing
slashes — the result is `scheme://host` + `/media/...` independently of `k`.
For bases whose path ends in a nonempty segment-with-trailing-slash the
trailing-slash half of the original claim fails (see the counterexample):
stripping the trailing slashes turns the final path segment into a slug that
gets dropped. -/
theorem mergeSlashInsensitivity :
    (∀ (env : Env) (f streamlitUrl : String),
      startsWithJs f "/" = true →
      startsWithJs (collapseLeadingSlashes f) BASE_MEDIA_PATH = true →
      getStreamlitUrl env = some streamlitUrl →
      mergeFileUrlWithStreamlitUrl env (some ("/" ++ f)) =
        mergeFileUrlWithStreamlitUrl env (some f)) ∧
    (∀ (c0 : Char) (cs hostL : List Char) (k : Nat),
      c0.isAlpha = true → (∀ c ∈ c0 :: cs, isSchemeChar c = true) →
      hostL ≠ [] → (∀ c ∈ hostL, isHostEnd c = false) →
      mergeFileUrlWithStreamlitUrl
        (envWithParam (String.mk ((c0 :: cs) ++ ':' :: '/' :: '/' ::
          (hostL ++ List.replicate k '/'))))
        (some "/media/file.pdf") =
      some (String.mk ((c0 :: cs) ++ ':' :: '/' :: '/' :: hostL) ++
        "/media/file.pdf")) := by
  constructor
  · intro env f su hsw hm hg
    obtain ⟨rest, hfd⟩ := startsWithSlash_data f hsw
    have hf : f ≠ "" := by
      intro e
      rw [e] at hfd
      exact absurd hfd (by simp)
    have h0 : "/" ++ f ≠ "" := append_ne_empty_left "/" f (by decide)
    have hcoll : collapseLeadingSlashes ("/" ++ f) =
        collapseLeadingSlashes f := by
      unfold collapseLeadingSlashes
      rw [string_eq_iff_data]
      simp only [data_append]
      rw [hfd]
      exact congrArg (·) (collapseLeadingAux_double rest)
    have hsu := getStreamlitUrl_ne_empty env su hg
    simp only [mergeFileUrlWithStreamlitUrl]
    rw [if_neg h0, if_neg hf]
    simp [hcoll, hm, hg, hsu]
  · intro c0 cs hostL k ha hsc hh hhe
    have hu : String.mk ((c0 :: cs) ++ ':' :: '/' :: '/' ::
        (hostL ++ List.replicate k '/')) ≠ "" :=
      mk_ne_empty_of_ne_nil (by simp)
    have hg := getStreamlitUrl_envWithParam _ hu
    cases k with
    | zero =>
      have hp : parseUrl (String.mk ((c0 :: cs) ++ ':' :: '/' :: '/' ::
          (hostL ++ List.replicate 0 '/'))) =
          some ⟨String.mk ((c0 :: cs) ++ ':' :: '/' :: '/' :: hostL), "/"⟩ := by
        rw [show parseUrl (String.mk ((c0 :: cs) ++ ':' :: '/' :: '/' ::
            (hostL ++ List.replicate 0 '/'))) =
            parseUrlCore ((c0 :: cs) ++ ':' :: '/' :: '/' ::
              (hostL ++ List.replicate 0 '/')) from rfl]
        rw [parseUrlCore_hostOnly c0 cs hostL 0 ha hsc hh hhe]
        rfl
      simp only [mergeFileUrlWithStreamlitUrl]
      rw [if_neg (show ("/media/file.pdf" : String) ≠ "" by decide)]
      rw [show collapseLeadingSlashes "/media/file.pdf" = "/media/file.pdf"
        from by decide]
      rw [show startsWithJs "/media/file.pdf" BASE_MEDIA_PATH = true
        from by decide]
      simp only [Bool.not_true, Bool.false_eq_true, if_false, hg,
        if_neg hu, hp]
      rw [if_neg (show ¬ ("/" : String) = "" by decide)]
      rw [show deriveAppBasePath "/" = "/" from by decide]
      rw [show stripLeadingSlashes "/media/file.pdf" = "media/file.pdf"
        from by decide]
      rw [string_append_assoc]
      rfl
    | succ k =>
      have hne : String.mk (List.replicate (k + 1) '/') ≠ "" :=
        mk_ne_empty_of_ne_nil (by simp [List.replicate_succ])
      have hp : parseUrl (String.mk ((c0 :: cs) ++ ':' :: '/' :: '/' ::
          (hostL ++ List.replicate (k + 1) '/'))) =
          some ⟨String.mk ((c0 :: cs) ++ ':' :: '/' :: '/' :: hostL),
                String.mk (List.replicate (k + 1) '/')⟩ := by
        rw [show parseUrl (String.mk ((c0 :: cs) ++ ':' :: '/' :: '/' ::
            (hostL ++ List.replicate (k + 1) '/'))) =
            parseUrlCore ((c0 :: cs) ++ ':' :: '/' :: '/' ::
              (hostL ++ List.replicate (k + 1) '/')) from rfl]
        rw [parseUrlCore_hostOnly c0 cs hostL (k + 1) ha hsc hh hhe]
        rw [if_neg (Nat.succ_ne_zero k)]
      simp only [mergeFileUrlWithStreamlitUrl]
      rw [if_neg (show ("/media/file.pdf" : String) ≠ "" by decide)]
      rw [show collapseLeadingSlashes "/media/file.pdf" = "/media/file.pdf"
        from by decide]
      rw [show startsWithJs "/media/file.pdf" BASE_MEDIA_PATH = true
        from by decide]
      simp only [Bool.not_true, Bool.false_eq_true, if_false, hg,
        if_neg hu, hp]
      rw [if_neg hne, deriveAppBasePath_replicate k]
      rw [show stripLeadingSlashes "/media/file.pdf" = "media/file.pdf"
        from by decide]
      rw [string_append_assoc]
      rfl

/-- C4 counterexample: for the well-formed base `http://host/app//` (path
with trailing slashes after a nonempty segment), the claim fails — resolving
`/media/file.pdf` against the base gives `http://host/app/media/file.pdf`,
but against the base with trailing slashes stripped (`http://host/app`) it
gives `http://host/media/file.pdf`. -/
theorem mergeSlashInsensitivityCounterexample :
    stripTrailingSlashes "http://host/app//" = "http://host/app" ∧
    mergeFileUrlWithStreamlitUrl (envWithParam "http://host/app//")
      (some "/media/file.pdf") = some "http://host/app/media/file.pdf" ∧
    mergeFileUrlWithStreamlitUrl (envWithParam "http://host/app")
      (some "/media/file.pdf") = some "http://host/media/file.pdf" ∧
    mergeFileUrlWithStreamlitUrl (envWithParam "http://host/app//")
      (some "/media/file.pdf") ≠
      mergeFileUrlWithStreamlitUrl (envWithParam "http://host/app")
        (some "/media/file.pdf") := by
  decide

/-- Witness for `mergeSlashInsensitivity`: a doubled leading slash on the
reference and three trailing slashes on a host-only base both leave the
resolved URL unchanged. -/
theorem mergeSlashInsensitivity_witness :
    mergeFileUrlWithStreamlitUrl (envWithParam "http://localhost:8501")
      (some ("/" ++ "/media/file.pdf")) =
      mergeFileUrlWithStreamlitUrl (envWithParam "http://localhost:8501")
        (some "/media/file.pdf") ∧
    mergeFileUrlWithStreamlitUrl (envWithParam "http://localhost:8501///")
      (some "/media/file.pdf") =
      some "http://localhost:8501/media/file.pdf" := by
  constructor
  · exact mergeSlashInsensitivity.1 (envWithParam "http://localhost:8501")
      "/media/file.pdf" "http://localhost:8501" (by decide) (by decide)
      (getStreamlitUrl_envWithParam "http://localhost:8501" (by decide))
  · have h := mergeSlashInsensitivity.2 'h' "ttp".data "localhost:8501".data 3
      (by decide) (by decide) (by decide) (by decide)
    have e1 : String.mk (('h' :: "ttp".data) ++ ':' :: '/' :: '/' ::
        ("localhost:8501".data ++ List.replicate 3 '/')) =
        "http://localhost:8501///" := by decide
    have e2 : String.mk (('h' :: "ttp".data) ++ ':' :: '/' :: '/' ::
        "localhost:8501".data) ++ "/media/file.pdf" =
        "http://localhost:8501/media/file.pdf" := by decide
    rw [e1, e2] at h
    exact h

end StreamlitPdf
